import Mathlib

/-!
Shallow embedding of the active-registration reminder system
(scheduler.js, dedup.js, notifications.js, index.js) and proofs of the
specification claims about its window matching, deduplication and
dispatch behaviour.

File contents are modelled as typed association lists keyed by path
string; JavaScript objects are modelled as association lists keyed by
their string keys, with `setKey` reproducing object-assignment
semantics (update in place, or append when the key is new).
-/

namespace ActiveRegistration

/-- Association-list lookup keyed by string, modelling JavaScript object
indexing `obj[key]` (first matching key wins; real objects have unique keys). -/
def getKey {α : Type} (key : String) : List (String × α) → Option α
  | [] => none
  | (k, v) :: rest => if k = key then some v else getKey key rest

/-- Association-list update keyed by string, modelling JavaScript object
assignment `obj[key] = v`: replaces the entry in place when the key exists,
otherwise appends at the end (insertion order preserved). -/
def setKey {α : Type} (key : String) (v : α) : List (String × α) → List (String × α)
  | [] => [(key, v)]
  | (k, w) :: rest => if k = key then (key, v) :: rest else (k, w) :: setKey key v rest

/-- Number of entries of an association list that carry the given key; a
JavaScript object holds at most one, and the dedup idempotence claim counts
the live records for one key with this measure. -/
def countKey {α : Type} (key : String) (l : List (String × α)) : Nat :=
  (l.filter (fun kv => kv.1 == key)).length

/-- Local time of day, as returned by parseTime and getCurrentTime in
src/scheduler.js: an hours field and a minutes field. -/
structure Time where
  hours : Nat
  minutes : Nat
deriving DecidableEq, Repr

/-- A timetable period (src data model): start and end times kept as the raw
HH:MM strings that the timetable JSON holds; parsing happens at match time. -/
structure Period where
  start : String
  «end» : String
deriving DecidableEq, Repr

/-- A lesson entry of one weekday in the schedule: class name, period name and
subject, exactly the fields the scheduler and dispatcher read. -/
structure Lesson where
  «class» : String
  period : String
  subject : String
deriving DecidableEq, Repr

/-- A record of the persisted dedup stores: dedup.js markNotified writes all
four fields; scheduler.js hasAlreadyNotified reads only the date field. -/
structure DedupRecord where
  date : String
  notifiedAt : String
  «class» : String
  period : String
deriving DecidableEq, Repr

/-- The content of one dedup file: a JavaScript object mapping the key
"class|period" to a DedupRecord. -/
abbrev Store := List (String × DedupRecord)

/-- The file system visible to the program, restricted to the dedup files:
a mapping from path to store content. A path that is absent reads as the
empty store (loadDedupData returns an empty object when the file is missing
or corrupt). -/
abbrev FS := List (String × Store)

/-- Reading a dedup file: loadDedupData in both dedup.js and scheduler.js
returns the parsed content, or the empty object when the file is absent. -/
def fsRead (fs : FS) (p : String) : Store :=
  (getKey p fs).getD []

/-- Writing a dedup file: saveDedupData overwrites the file content. -/
def fsWrite (fs : FS) (p : String) (data : Store) : FS :=
  setKey p data fs

/-- One structured log line with its level, as produced by the logger module. -/
structure LogEntry where
  level : String
  message : String
deriving DecidableEq, Repr

namespace Scheduler

/-- Path of the dedup file read by scheduler.js (line 6): logs/last-notified.json. -/
def DEDUP_FILE : String := "logs/last-notified.json"

/-- Notification window in minutes (scheduler.js line 9). -/
def NOTIFICATION_WINDOW_MINUTES : Nat := 5

/-- Numeric value of one decimal digit character. -/
def digitVal (c : Char) : Nat := c.toNat - 48

/-- Embedding of the regex match of parseTime (scheduler.js line 18): the
whole string must be one or two digits, a colon, then exactly two digits;
returns the numeric value of the two capture groups. -/
def matchTimeString : List Char → Option (Nat × Nat)
  | [h1, ':', m1, m2] =>
    if h1.isDigit && m1.isDigit && m2.isDigit then
      some (digitVal h1, 10 * digitVal m1 + digitVal m2)
    else none
  | [h1, h2, ':', m1, m2] =>
    if h1.isDigit && h2.isDigit && m1.isDigit && m2.isDigit then
      some (10 * digitVal h1 + digitVal h2, 10 * digitVal m1 + digitVal m2)
    else none
  | _ => none

/-- Embedding of parseTime (scheduler.js lines 17-31): parse an HH:MM string,
throwing (modelled as Except.error) on a format mismatch or on out-of-range
hour or minute values. -/
def parseTime (timeString : String) : Except String Time :=
  match matchTimeString timeString.toList with
  | none => .error ("Invalid time format: \"" ++ timeString ++ "\" (expected HH:MM)")
  | some (hours, minutes) =>
    if hours > 23 || minutes > 59 then
      .error ("Invalid time values: \"" ++ timeString ++ "\"")
    else
      .ok { hours := hours, minutes := minutes }

/-- Embedding of addMinutes (scheduler.js lines 39-45): total minutes are
recomputed, hours are Math.floor(total/60) reduced modulo 24, minutes are
total modulo 60. The minutes-to-add argument is a natural number, matching
the non-negative notificationOffset configuration value. -/
def addMinutes (time : Time) (minutesToAdd : Nat) : Time :=
  let totalMinutes := time.hours * 60 + time.minutes + minutesToAdd
  { hours := totalMinutes / 60 % 24, minutes := totalMinutes % 60 }

/-- Embedding of timeToMinutes (scheduler.js lines 89-91): minutes since
midnight. -/
def timeToMinutes (time : Time) : Nat :=
  time.hours * 60 + time.minutes

/-- Embedding of hasAlreadyNotified (scheduler.js lines 149-154): loads the
scheduler-local dedup file and reports whether the key class-pipe-period holds
an entry dated today. -/
def hasAlreadyNotified (fs : FS) (className : String) (period : String) (todayDate : String) : Bool :=
  let dedupData := fsRead fs DEDUP_FILE
  let key := className ++ "|" ++ period
  match getKey key dedupData with
  | some entry => entry.date == todayDate
  | none => false

/-- Embedding of shouldNotifyNow (scheduler.js lines 187-205). Returns the
value or thrown error, paired with the log lines emitted: an unknown period
name warns and returns false; a period start string that parseTime rejects
makes the whole call throw (there is no try/catch in the source function);
otherwise the boolean window test is returned. -/
def shouldNotifyNow (lesson : Lesson) (periods : List (String × Period))
    (offsetMinutes : Nat) (currentTime : Time) : Except String Bool × List LogEntry :=
  match getKey lesson.period periods with
  | none => (.ok false, [{ level := "WARN", message := "Unknown period in lesson" }])
  | some period =>
    match parseTime period.start with
    | .error e => (.error e, [])
    | .ok periodStart =>
      let notifyTime := addMinutes periodStart offsetMinutes
      let currentMinutes := timeToMinutes currentTime
      let notifyMinutes := timeToMinutes notifyTime
      let windowEndMinutes := notifyMinutes + NOTIFICATION_WINDOW_MINUTES
      (.ok (decide (notifyMinutes ≤ currentMinutes) && decide (currentMinutes < windowEndMinutes)), [])

/-- Embedding of getLessonsToNotify (scheduler.js lines 217-238): an
Array.prototype.filter over the lessons whose predicate first tests the
window (shouldNotifyNow) and then the scheduler-local dedup store
(hasAlreadyNotified). A throw from shouldNotifyNow propagates out of the
filter, aborting the rest of the batch. The today-date string computed from
the timezone by getTodayDateString is passed in as a parameter, the time
source being external to this model. -/
def getLessonsToNotify (fs : FS) (lessons : List Lesson) (periods : List (String × Period))
    (offsetMinutes : Nat) (currentTime : Time) (todayDate : String) :
    Except String (List Lesson) :=
  match lessons with
  | [] => .ok []
  | lesson :: rest =>
    match (shouldNotifyNow lesson periods offsetMinutes currentTime).1 with
    | .error e => .error e
    | .ok due =>
      if due then
        if hasAlreadyNotified fs lesson.«class» lesson.period todayDate then
          getLessonsToNotify fs rest periods offsetMinutes currentTime todayDate
        else
          (getLessonsToNotify fs rest periods offsetMinutes currentTime todayDate).map
            (fun out => lesson :: out)
      else
        getLessonsToNotify fs rest periods offsetMinutes currentTime todayDate

end Scheduler

namespace Dedup

/-- Path of the dedup file used by dedup.js (line 6): logs/notified-today.json. -/
def DEDUP_FILE : String := "logs/notified-today.json"

/-- The dedup key for a lesson: class name, a pipe, the period name. -/
def dedupKey (lesson : Lesson) : String :=
  lesson.«class» ++ "|" ++ lesson.period

/-- Embedding of hasBeenNotified (dedup.js lines 46-51): loads
logs/notified-today.json and reports whether the key of the lesson holds an entry
dated today. -/
def hasBeenNotified (fs : FS) (lesson : Lesson) (date : String) : Bool :=
  let dedupData := fsRead fs DEDUP_FILE
  match getKey (dedupKey lesson) dedupData with
  | some entry => entry.date == date
  | none => false

/-- Embedding of markNotified (dedup.js lines 59-80): loads the store, first
deletes every entry whose date differs from the given date, then upserts the
key of the lesson to a fresh record, then saves the whole store back to
logs/notified-today.json. The notifiedAt timestamp string is passed in,
the clock being external to this model. -/
def markNotified (fs : FS) (lesson : Lesson) (date : String) (notifiedAt : String) : FS :=
  let dedupData := fsRead fs DEDUP_FILE
  let cleaned := dedupData.filter (fun kv => kv.2.date == date)
  let updated := setKey (dedupKey lesson) ⟨date, notifiedAt, lesson.«class», lesson.period⟩ cleaned
  fsWrite fs DEDUP_FILE updated

end Dedup

namespace Notifications

/-- Outcome of one fetchWithTimeout call as seen by the caller: either a
response carrying its ok flag, status and body text, or a thrown error
(network failure, abort on timeout). -/
inductive FetchOutcome where
  | response (ok : Bool) (status : Nat) (text : String)
  | thrown (message : String)
deriving DecidableEq, Repr

/-- Embedding of sendPushover (notifications.js lines 47-91) over the
outcomes of its two fetch attempts: missing credentials throw before any
attempt; an ok first response returns; otherwise the retry is consulted, a
non-ok or thrown retry being wrapped into the failed-after-retry error. -/
def sendPushover (hasCredentials : Bool) (attempt1 attempt2 : FetchOutcome) :
    Except String Unit :=
  if !hasCredentials then
    .error "Missing Pushover credentials: PUSHOVER_USER_KEY and PUSHOVER_API_TOKEN must be set in .env"
  else
    match attempt1 with
    | .response true _ _ => .ok ()
    | _ =>
      match attempt2 with
      | .response true _ _ => .ok ()
      | .response false status text =>
        .error ("Pushover failed after retry: Pushover API returned " ++ toString status ++ ": " ++ text)
      | .thrown message => .error ("Pushover failed after retry: " ++ message)

/-- Embedding of sendEmail (notifications.js lines 100-148) over the outcomes
of its two fetch attempts, with the same attempt-retry-wrap structure as
sendPushover. -/
def sendEmail (hasCredentials : Bool) (attempt1 attempt2 : FetchOutcome) :
    Except String Unit :=
  if !hasCredentials then
    .error "Missing Resend credentials: RESEND_API_KEY must be set in .env"
  else
    match attempt1 with
    | .response true _ _ => .ok ()
    | _ =>
      match attempt2 with
      | .response true _ _ => .ok ()
      | .response false status text =>
        .error ("Resend failed after retry: Resend API returned " ++ toString status ++ ": " ++ text)
      | .thrown message => .error ("Resend failed after retry: " ++ message)

/-- The per-channel status record returned by sendNotifications. -/
structure NotifyResult where
  pushover : String
  email : String
deriving DecidableEq, Repr

/-- Status string assigned to one settled promise (notifications.js lines
170-171): fulfilled maps to success, rejected maps to failed. -/
def settledStatus (result : Except String Unit) : String :=
  match result with
  | .ok _ => "success"
  | .error _ => "failed"

/-- Embedding of sendNotifications (notifications.js lines 156-186):
Promise.allSettled runs both channels and never rejects, so the function
totally returns the two settled statuses as a record; the status of each
channel depends only on the credentials and fetch outcomes of that channel. -/
def sendNotifications (pushoverCreds : Bool) (pushoverA1 pushoverA2 : FetchOutcome)
    (emailCreds : Bool) (emailA1 emailA2 : FetchOutcome) : NotifyResult :=
  let results := (sendPushover pushoverCreds pushoverA1 pushoverA2,
                  sendEmail emailCreds emailA1 emailA2)
  { pushover := settledStatus results.1, email := settledStatus results.2 }

end Notifications

namespace Index

/-- One iteration of the dispatch loop of main (index.js lines 69-92): skip
the lesson when hasBeenNotified reports it already notified today; otherwise
the dispatch outcome decides: when the awaited sendNotifications call did not
raise, markNotified records the lesson unconditionally, and when it raised,
the catch block leaves the store untouched. The dispatch outcome and the
timestamp are supplied by the environment. -/
def processLesson (fs : FS) (lesson : Lesson) (todayDate : String)
    (dispatchResult : Except String Notifications.NotifyResult) (notifiedAt : String) : FS :=
  if Dedup.hasBeenNotified fs lesson todayDate then fs
  else
    match dispatchResult with
    | .ok _ => Dedup.markNotified fs lesson todayDate notifiedAt
    | .error _ => fs

/-- The whole dispatch loop of main over the lessons in the window, threading
the file system, each lesson paired with its dispatch outcome and timestamp. -/
def runDispatchLoop (todayDate : String) (fs : FS) :
    List (Lesson × Except String Notifications.NotifyResult × String) → FS
  | [] => fs
  | (lesson, result, t) :: rest =>
    runDispatchLoop todayDate (processLesson fs lesson todayDate result t) rest

end Index

/-! Helper lemmas about the association-list primitives. -/

theorem getKey_setKey_self {α : Type} (key : String) (v : α) (l : List (String × α)) :
    getKey key (setKey key v l) = some v := by
  induction l with
  | nil => simp [getKey, setKey]
  | cons hd rest ih =>
    obtain ⟨k, w⟩ := hd
    by_cases h : k = key
    · simp [setKey, getKey, h]
    · simp [setKey, getKey, h, ih]

theorem getKey_setKey_ne {α : Type} (q key : String) (v : α) (l : List (String × α))
    (h : q ≠ key) : getKey q (setKey key v l) = getKey q l := by
  induction l with
  | nil => simp [getKey, setKey, Ne.symm h]
  | cons hd rest ih =>
    obtain ⟨k, w⟩ := hd
    by_cases hk : k = key
    · subst hk
      simp [setKey, getKey, Ne.symm h]
    · by_cases hq : k = q
      · subst hq
        simp [setKey, getKey, hk]
      · simp [setKey, getKey, hk, hq, ih]

theorem mem_setKey {α : Type} {kv : String × α} {key : String} {v : α}
    {l : List (String × α)} (h : kv ∈ setKey key v l) : kv = (key, v) ∨ kv ∈ l := by
  induction l with
  | nil => simpa [setKey] using h
  | cons hd rest ih =>
    obtain ⟨k, w⟩ := hd
    by_cases hk : k = key
    · simp only [setKey, if_pos hk, List.mem_cons] at h
      rcases h with h1 | h2
      · exact Or.inl h1
      · exact Or.inr (List.mem_cons_of_mem _ h2)
    · simp only [setKey, if_neg hk, List.mem_cons] at h
      rcases h with h1 | h2
      · exact Or.inr (by simp [h1])
      · rcases ih h2 with h3 | h4
        · exact Or.inl h3
        · exact Or.inr (List.mem_cons_of_mem _ h4)

theorem keys_setKey_subset {α : Type} {q key : String} {v : α} {l : List (String × α)}
    (h : q ∈ (setKey key v l).map Prod.fst) : q = key ∨ q ∈ l.map Prod.fst := by
  rcases List.mem_map.mp h with ⟨kv, hmem, hq⟩
  rcases mem_setKey hmem with h1 | h2
  · left; rw [← hq, h1]
  · right; exact List.mem_map.mpr ⟨kv, h2, hq⟩

theorem nodupKeys_setKey {α : Type} (key : String) (v : α) (l : List (String × α))
    (h : (l.map Prod.fst).Nodup) : ((setKey key v l).map Prod.fst).Nodup := by
  induction l with
  | nil => simp [setKey]
  | cons hd rest ih =>
    obtain ⟨k, w⟩ := hd
    simp only [List.map_cons, List.nodup_cons] at h
    by_cases hk : k = key
    · subst hk
      have hred : setKey k v ((k, w) :: rest) = (k, v) :: rest := by simp [setKey]
      rw [hred]
      simp only [List.map_cons, List.nodup_cons]
      exact ⟨h.1, h.2⟩
    · simp only [setKey, if_neg hk, List.map_cons, List.nodup_cons]
      refine ⟨fun hmem => ?_, ih h.2⟩
      rcases keys_setKey_subset hmem with h1 | h2
      · exact hk h1
      · exact h.1 h2

theorem countKey_eq_zero {α : Type} {key : String} {l : List (String × α)}
    (h : key ∉ l.map Prod.fst) : countKey key l = 0 := by
  induction l with
  | nil => rfl
  | cons hd rest ih =>
    obtain ⟨k, w⟩ := hd
    simp only [List.map_cons, List.mem_cons] at h
    push_neg at h
    have hk : (k == key) = false := by
      simpa using fun hh : k = key => h.1 (by simp [hh])
    simp only [countKey, List.filter_cons, hk]
    exact ih h.2

theorem countKey_setKey_nodup {α : Type} (key : String) (v : α) (l : List (String × α))
    (h : (l.map Prod.fst).Nodup) : countKey key (setKey key v l) = 1 := by
  induction l with
  | nil => simp [countKey, setKey]
  | cons hd rest ih =>
    obtain ⟨k, w⟩ := hd
    simp only [List.map_cons, List.nodup_cons] at h
    by_cases hk : k = key
    · subst hk
      have hred : setKey k v ((k, w) :: rest) = (k, v) :: rest := by simp [setKey]
      rw [hred]
      have hz : countKey k rest = 0 := countKey_eq_zero h.1
      simp only [countKey, List.filter_cons] at hz ⊢
      simp [hz]
    · simp only [setKey, if_neg hk]
      have hkf : (k == key) = false := by simpa using hk
      simp only [countKey, List.filter_cons, hkf]
      exact ih h.2

theorem fsRead_fsWrite_self (fs : FS) (p : String) (data : Store) :
    fsRead (fsWrite fs p data) p = data := by
  simp [fsRead, fsWrite, getKey_setKey_self]

theorem fsRead_fsWrite_ne (fs : FS) (p q : String) (data : Store) (h : q ≠ p) :
    fsRead (fsWrite fs p data) q = fsRead fs q := by
  simp [fsRead, fsWrite, getKey_setKey_ne q p data fs h]

/-! Helper lemmas about the scheduler arithmetic and the two dedup stores. -/

theorem timeToMinutes_addMinutes (t : Time) (m : Nat) :
    Scheduler.timeToMinutes (Scheduler.addMinutes t m) =
      (Scheduler.timeToMinutes t + m) % 1440 := by
  simp only [Scheduler.timeToMinutes, Scheduler.addMinutes]
  omega

theorem dedup_files_ne : Dedup.DEDUP_FILE ≠ Scheduler.DEDUP_FILE := by decide

theorem fsRead_markNotified_ne (fs : FS) (lesson : Lesson) (date t p : String)
    (h : p ≠ Dedup.DEDUP_FILE) :
    fsRead (Dedup.markNotified fs lesson date t) p = fsRead fs p := by
  simp only [Dedup.markNotified]
  exact fsRead_fsWrite_ne _ _ _ _ h

theorem fsRead_markNotified_self (fs : FS) (lesson : Lesson) (date t : String) :
    fsRead (Dedup.markNotified fs lesson date t) Dedup.DEDUP_FILE =
      setKey (Dedup.dedupKey lesson) ⟨date, t, lesson.«class», lesson.period⟩
        ((fsRead fs Dedup.DEDUP_FILE).filter (fun kv => kv.2.date == date)) := by
  simp only [Dedup.markNotified]
  exact fsRead_fsWrite_self _ _ _

theorem hasAlreadyNotified_congr (fs1 fs2 : FS) (c p d : String)
    (h : fsRead fs1 Scheduler.DEDUP_FILE = fsRead fs2 Scheduler.DEDUP_FILE) :
    Scheduler.hasAlreadyNotified fs1 c p d = Scheduler.hasAlreadyNotified fs2 c p d := by
  simp only [Scheduler.hasAlreadyNotified, h]

theorem hasAlreadyNotified_markNotified (fs : FS) (lesson : Lesson) (date t c p d : String) :
    Scheduler.hasAlreadyNotified (Dedup.markNotified fs lesson date t) c p d =
      Scheduler.hasAlreadyNotified fs c p d :=
  hasAlreadyNotified_congr _ _ _ _ _
    (fsRead_markNotified_ne fs lesson date t _ (Ne.symm dedup_files_ne))

theorem sched_store_processLesson (fs : FS) (lesson : Lesson) (todayDate : String)
    (r : Except String Notifications.NotifyResult) (t : String) :
    fsRead (Index.processLesson fs lesson todayDate r t) Scheduler.DEDUP_FILE =
      fsRead fs Scheduler.DEDUP_FILE := by
  unfold Index.processLesson
  split
  · rfl
  · cases r with
    | ok v => exact fsRead_markNotified_ne _ _ _ _ _ (Ne.symm dedup_files_ne)
    | error e => rfl

theorem sched_store_runDispatchLoop (todayDate : String) (fs : FS)
    (items : List (Lesson × Except String Notifications.NotifyResult × String)) :
    fsRead (Index.runDispatchLoop todayDate fs items) Scheduler.DEDUP_FILE =
      fsRead fs Scheduler.DEDUP_FILE := by
  induction items generalizing fs with
  | nil => rfl
  | cons item rest ih =>
    obtain ⟨lesson, r, t⟩ := item
    simp only [Index.runDispatchLoop]
    rw [ih, sched_store_processLesson]

theorem getLessonsToNotify_fs_congr (fs1 fs2 : FS) (lessons : List Lesson)
    (periods : List (String × Period)) (offsetMinutes : Nat) (now : Time) (todayDate : String)
    (h : fsRead fs1 Scheduler.DEDUP_FILE = fsRead fs2 Scheduler.DEDUP_FILE) :
    Scheduler.getLessonsToNotify fs1 lessons periods offsetMinutes now todayDate =
      Scheduler.getLessonsToNotify fs2 lessons periods offsetMinutes now todayDate := by
  induction lessons with
  | nil => rfl
  | cons lesson rest ih =>
    simp only [Scheduler.getLessonsToNotify]
    cases hdue : (Scheduler.shouldNotifyNow lesson periods offsetMinutes now).1 with
    | error e => rfl
    | ok due =>
      cases due with
      | false => simpa using ih
      | true =>
        rw [hasAlreadyNotified_congr fs1 fs2 _ _ _ h]
        by_cases hdd : Scheduler.hasAlreadyNotified fs2 lesson.«class» lesson.period todayDate
        · simpa [hdd] using ih
        · simp only [hdd, if_false, Bool.false_eq_true]
          rw [ih]

theorem getLessonsToNotify_sublist (fs : FS) (lessons : List Lesson)
    (periods : List (String × Period)) (offsetMinutes : Nat) (now : Time) (todayDate : String)
    (out : List Lesson)
    (h : Scheduler.getLessonsToNotify fs lessons periods offsetMinutes now todayDate = .ok out) :
    out.Sublist lessons := by
  induction lessons generalizing out with
  | nil =>
    simp only [Scheduler.getLessonsToNotify, Except.ok.injEq] at h
    rw [← h]
  | cons lesson rest ih =>
    simp only [Scheduler.getLessonsToNotify] at h
    cases hdue : (Scheduler.shouldNotifyNow lesson periods offsetMinutes now).1 with
    | error e => rw [hdue] at h; cases h
    | ok due =>
      rw [hdue] at h
      cases due with
      | false =>
        simp only [Bool.false_eq_true, if_false] at h
        exact (ih out h).cons _
      | true =>
        simp only [if_true] at h
        by_cases hdd : Scheduler.hasAlreadyNotified fs lesson.«class» lesson.period todayDate
        · rw [if_pos hdd] at h
          exact (ih out h).cons _
        · rw [if_neg hdd] at h
          cases hrec : Scheduler.getLessonsToNotify fs rest periods offsetMinutes now todayDate with
          | error e => rw [hrec] at h; cases h
          | ok out2 =>
            rw [hrec] at h
            simp only [Except.map, Except.ok.injEq] at h
            rw [← h]
            exact (ih out2 hrec).cons₂ _

theorem mem_getLessonsToNotify (fs : FS) (lessons : List Lesson)
    (periods : List (String × Period)) (offsetMinutes : Nat) (now : Time) (todayDate : String)
    (out : List Lesson) (l : Lesson)
    (h : Scheduler.getLessonsToNotify fs lessons periods offsetMinutes now todayDate = .ok out) :
    l ∈ out ↔
      (l ∈ lessons ∧ (Scheduler.shouldNotifyNow l periods offsetMinutes now).1 = .ok true ∧
       Scheduler.hasAlreadyNotified fs l.«class» l.period todayDate = false) := by
  induction lessons generalizing out with
  | nil =>
    simp only [Scheduler.getLessonsToNotify, Except.ok.injEq] at h
    simp [← h]
  | cons lesson rest ih =>
    simp only [Scheduler.getLessonsToNotify] at h
    cases hdue : (Scheduler.shouldNotifyNow lesson periods offsetMinutes now).1 with
    | error e => rw [hdue] at h; cases h
    | ok due =>
      rw [hdue] at h
      cases due with
      | false =>
        simp only [Bool.false_eq_true, if_false] at h
        rw [ih out h]
        constructor
        · rintro ⟨h1, h2, h3⟩
          exact ⟨List.mem_cons_of_mem _ h1, h2, h3⟩
        · rintro ⟨h1, h2, h3⟩
          rcases List.mem_cons.mp h1 with h4 | h4
          · rw [h4] at h2
            rw [h2] at hdue
            cases hdue
          · exact ⟨h4, h2, h3⟩
      | true =>
        simp only [if_true] at h
        by_cases hdd : Scheduler.hasAlreadyNotified fs lesson.«class» lesson.period todayDate
        · rw [if_pos hdd] at h
          rw [ih out h]
          constructor
          · rintro ⟨h1, h2, h3⟩
            exact ⟨List.mem_cons_of_mem _ h1, h2, h3⟩
          · rintro ⟨h1, h2, h3⟩
            rcases List.mem_cons.mp h1 with h4 | h4
            · rw [h4] at h3
              rw [h3] at hdd
              cases hdd
            · exact ⟨h4, h2, h3⟩
        · rw [if_neg hdd] at h
          cases hrec : Scheduler.getLessonsToNotify fs rest periods offsetMinutes now todayDate with
          | error e => rw [hrec] at h; cases h
          | ok out2 =>
            rw [hrec] at h
            simp only [Except.map, Except.ok.injEq] at h
            rw [← h, List.mem_cons, ih out2 hrec]
            constructor
            · rintro (h1 | ⟨h1, h2, h3⟩)
              · subst h1
                exact ⟨List.mem_cons_self _ _, hdue, Bool.eq_false_iff.mpr hdd⟩
              · exact ⟨List.mem_cons_of_mem _ h1, h2, h3⟩
            · rintro ⟨h1, h2, h3⟩
              rcases List.mem_cons.mp h1 with h4 | h4
              · exact Or.inl h4
              · exact Or.inr ⟨h4, h2, h3⟩

/-! Claim theorems. -/

/-- Claim C1, counterexample: for the lesson whose period start string is the
malformed "9:60", shouldNotifyNow does not return false but throws, and
getLessonsToNotify over a batch holding that lesson propagates the error
instead of filtering the lesson out. -/
theorem shouldNotifyNow_malformed_time_throws_cex :
    (Scheduler.shouldNotifyNow ⟨"10A", "P1", "Maths"⟩ [("P1", ⟨"9:60", "10:00"⟩)] 10 ⟨9, 0⟩).1 ≠
      Except.ok false ∧
    Scheduler.getLessonsToNotify [] [⟨"10A", "P1", "Maths"⟩] [("P1", ⟨"9:60", "10:00"⟩)]
        10 ⟨9, 0⟩ "2026-01-13" =
      Except.error "Invalid time values: \"9:60\"" := by
  constructor
  · intro h
    have h2 : (Except.error "Invalid time values: \"9:60\"" : Except String Bool) =
        Except.ok false := h
    cases h2
  · rfl

/-- Claim C1 (amended): for every lesson whose period exists in the periods
map but whose start-time string is malformed, shouldNotifyNow does NOT catch
the parse failure: it rethrows the parse error, and the error propagates to
the caller, so getLessonsToNotify over a batch holding that lesson aborts
with the same error instead of treating the lesson as unmatched. -/
theorem parseTime_error_propagates (fs : FS) (lesson : Lesson) (rest : List Lesson)
    (periods : List (String × Period)) (period : Period) (offsetMinutes : Nat)
    (now : Time) (e : String) (todayDate : String)
    (hp : getKey lesson.period periods = some period)
    (he : Scheduler.parseTime period.start = .error e) :
    (Scheduler.shouldNotifyNow lesson periods offsetMinutes now).1 = .error e ∧
    Scheduler.getLessonsToNotify fs (lesson :: rest) periods offsetMinutes now todayDate =
      .error e := by
  have h1 : (Scheduler.shouldNotifyNow lesson periods offsetMinutes now).1 = .error e := by
    simp [Scheduler.shouldNotifyNow, hp, he]
  refine ⟨h1, ?_⟩
  simp only [Scheduler.getLessonsToNotify, h1]

/-- Claim C1, witness: the amended theorem applied at the malformed start
string "9:60". -/
theorem parseTime_error_propagates_witness :
    (Scheduler.shouldNotifyNow ⟨"11B", "P2", "English"⟩ [("P2", ⟨"9:60", "10:00"⟩)] 10 ⟨9, 5⟩).1 =
      .error "Invalid time values: \"9:60\"" ∧
    Scheduler.getLessonsToNotify [] [⟨"11B", "P2", "English"⟩] [("P2", ⟨"9:60", "10:00"⟩)]
        10 ⟨9, 5⟩ "2026-01-13" =
      .error "Invalid time values: \"9:60\"" :=
  parseTime_error_propagates [] ⟨"11B", "P2", "English"⟩ [] [("P2", ⟨"9:60", "10:00"⟩)]
    ⟨"9:60", "10:00"⟩ 10 ⟨9, 5⟩ "Invalid time values: \"9:60\"" "2026-01-13" (by rfl) (by rfl)

/-- Claim C2, counterexample: the period starting at 23:55 with offset 10
crosses midnight, and shouldNotifyNow DOES match the early-morning time
00:06, because addMinutes reduces hours modulo 24 before the comparison. -/
theorem shouldNotifyNow_wraps_past_midnight_cex :
    (Scheduler.shouldNotifyNow ⟨"10A", "P9", "Maths"⟩ [("P9", ⟨"23:55", "23:59"⟩)] 10 ⟨0, 6⟩).1 =
      Except.ok true := by
  rfl

/-- Claim C2 (amended): for every period start, offset and current time,
isDue is true iff notifyMinutes less-or-equal nowMinutes and nowMinutes below
notifyMinutes plus the window, where notifyMinutes is the minutes-since-
midnight of the period start plus the offset reduced MODULO 1440: the notify
time wraps past midnight (addMinutes reduces hours modulo 24), so a period
whose start plus offset crosses midnight matches the corresponding
early-morning times; only the window end beyond the wrapped notify time is
left unwrapped. -/
theorem shouldNotifyNow_window_mod_day (lesson : Lesson) (periods : List (String × Period))
    (period : Period) (offsetMinutes : Nat) (now : Time) (start : Time)
    (hp : getKey lesson.period periods = some period)
    (hs : Scheduler.parseTime period.start = .ok start) :
    (Scheduler.shouldNotifyNow lesson periods offsetMinutes now).1 =
      .ok (decide
        ((Scheduler.timeToMinutes start + offsetMinutes) % 1440 ≤ Scheduler.timeToMinutes now ∧
         Scheduler.timeToMinutes now <
           (Scheduler.timeToMinutes start + offsetMinutes) % 1440 +
             Scheduler.NOTIFICATION_WINDOW_MINUTES)) := by
  simp only [Scheduler.shouldNotifyNow, hp, hs]
  rw [timeToMinutes_addMinutes]
  simp [Bool.decide_and]

/-- Claim C2, witness: the amended theorem applied at the 23:55 period with
offset 10 and current time 00:06, where the modulo-1440 notify time is 5
minutes past midnight. -/
theorem shouldNotifyNow_window_mod_day_witness :
    (Scheduler.shouldNotifyNow ⟨"10A", "P9", "Maths"⟩ [("P9", ⟨"23:55", "23:59"⟩)] 10 ⟨0, 6⟩).1 =
      .ok (decide
        ((Scheduler.timeToMinutes ⟨23, 55⟩ + 10) % 1440 ≤ Scheduler.timeToMinutes ⟨0, 6⟩ ∧
         Scheduler.timeToMinutes ⟨0, 6⟩ <
           (Scheduler.timeToMinutes ⟨23, 55⟩ + 10) % 1440 +
             Scheduler.NOTIFICATION_WINDOW_MINUTES)) :=
  shouldNotifyNow_window_mod_day ⟨"10A", "P9", "Maths"⟩ [("P9", ⟨"23:55", "23:59"⟩)]
    ⟨"23:55", "23:59"⟩ 10 ⟨0, 6⟩ ⟨23, 55⟩ (by rfl) (by rfl)

/-- Claim C3, counterexample: a lesson inside its notification window is
NOT included in the getLessonsToNotify output when the scheduler-local dedup
store (logs/last-notified.json) already records it for today, so the batch
matcher does not filter purely by the time window. -/
theorem getLessonsToNotify_scheduler_dedup_cex :
    (Scheduler.shouldNotifyNow ⟨"10A", "P1", "Maths"⟩ [("P1", ⟨"09:00", "09:40"⟩)] 10 ⟨9, 12⟩).1 =
      Except.ok true ∧
    Scheduler.getLessonsToNotify
        [(Scheduler.DEDUP_FILE, [("10A|P1", ⟨"2026-01-13", "T", "10A", "P1"⟩)])]
        [⟨"10A", "P1", "Maths"⟩] [("P1", ⟨"09:00", "09:40"⟩)] 10 ⟨9, 12⟩ "2026-01-13" =
      Except.ok [] :=
  ⟨rfl, rfl⟩

/-- Claim C3 (amended): getLessonsToNotify filters by the time window AND by
the scheduler-local dedup store read from logs/last-notified.json, preserving
the original order of entries (the output is a sublist of the input); it is
independent of the orchestrator-level dedup store written by markNotified to
logs/notified-today.json, so a lesson inside its window stays in the output
even after markNotified records it, and a lesson is in the output exactly
when it is in the input, its window matches, and the scheduler-local store
has no record for it today. -/
theorem getLessonsToNotify_window_and_local_store (fs : FS) (lessons : List Lesson)
    (periods : List (String × Period)) (offsetMinutes : Nat) (now : Time) (todayDate : String) :
    (∀ lesson0 date t,
        Scheduler.getLessonsToNotify (Dedup.markNotified fs lesson0 date t) lessons periods
            offsetMinutes now todayDate =
          Scheduler.getLessonsToNotify fs lessons periods offsetMinutes now todayDate) ∧
    (∀ out,
        Scheduler.getLessonsToNotify fs lessons periods offsetMinutes now todayDate = .ok out →
        (out.Sublist lessons ∧
         ∀ l, l ∈ out ↔
            (l ∈ lessons ∧ (Scheduler.shouldNotifyNow l periods offsetMinutes now).1 = .ok true ∧
             Scheduler.hasAlreadyNotified fs l.«class» l.period todayDate = false))) := by
  constructor
  · intro lesson0 date t
    exact getLessonsToNotify_fs_congr _ _ _ _ _ _ _
      (fsRead_markNotified_ne fs lesson0 date t _ (Ne.symm dedup_files_ne))
  · intro out hout
    exact ⟨getLessonsToNotify_sublist _ _ _ _ _ _ _ hout,
           fun l => mem_getLessonsToNotify _ _ _ _ _ _ _ _ hout⟩

/-- Claim C3, witness: the amended theorem applied at one due lesson over the
empty file system, after the orchestrator store recorded the same lesson. -/
theorem getLessonsToNotify_window_and_local_store_witness :
    (Scheduler.getLessonsToNotify
        (Dedup.markNotified [] ⟨"10A", "P1", "Maths"⟩ "2026-01-13" "T")
        [⟨"10A", "P1", "Maths"⟩] [("P1", ⟨"09:00", "09:40"⟩)] 10 ⟨9, 12⟩ "2026-01-13" =
      Scheduler.getLessonsToNotify [] [⟨"10A", "P1", "Maths"⟩] [("P1", ⟨"09:00", "09:40"⟩)]
        10 ⟨9, 12⟩ "2026-01-13") ∧
    List.Sublist [(⟨"10A", "P1", "Maths"⟩ : Lesson)] [(⟨"10A", "P1", "Maths"⟩ : Lesson)] :=
  ⟨(getLessonsToNotify_window_and_local_store [] [⟨"10A", "P1", "Maths"⟩]
        [("P1", ⟨"09:00", "09:40"⟩)] 10 ⟨9, 12⟩ "2026-01-13").1
      ⟨"10A", "P1", "Maths"⟩ "2026-01-13" "T",
   ((getLessonsToNotify_window_and_local_store [] [⟨"10A", "P1", "Maths"⟩]
        [("P1", ⟨"09:00", "09:40"⟩)] 10 ⟨9, 12⟩ "2026-01-13").2
      [⟨"10A", "P1", "Maths"⟩] (by rfl)).1⟩

/-- Claim C4: the two dedup stores are disjoint files: markNotified of
dedup.js writes only logs/notified-today.json, hasAlreadyNotified of
scheduler.js reads only logs/last-notified.json, the main dispatch loop
leaves logs/last-notified.json unchanged, and therefore marking a lesson
notified through the orchestrator path never changes the outcome of the
scheduler-level dedup check. -/
theorem dedup_stores_disjoint :
    Dedup.DEDUP_FILE ≠ Scheduler.DEDUP_FILE ∧
    (∀ fs lesson date t p, p ≠ Dedup.DEDUP_FILE →
        fsRead (Dedup.markNotified fs lesson date t) p = fsRead fs p) ∧
    (∀ fs1 fs2 c p d, fsRead fs1 Scheduler.DEDUP_FILE = fsRead fs2 Scheduler.DEDUP_FILE →
        Scheduler.hasAlreadyNotified fs1 c p d = Scheduler.hasAlreadyNotified fs2 c p d) ∧
    (∀ todayDate fs items,
        fsRead (Index.runDispatchLoop todayDate fs items) Scheduler.DEDUP_FILE =
          fsRead fs Scheduler.DEDUP_FILE) ∧
    (∀ fs lesson date t c p d,
        Scheduler.hasAlreadyNotified (Dedup.markNotified fs lesson date t) c p d =
          Scheduler.hasAlreadyNotified fs c p d) :=
  ⟨dedup_files_ne,
   fun fs lesson date t p h => fsRead_markNotified_ne fs lesson date t p h,
   fun fs1 fs2 c p d h => hasAlreadyNotified_congr fs1 fs2 c p d h,
   fun todayDate fs items => sched_store_runDispatchLoop todayDate fs items,
   fun fs lesson date t c p d => hasAlreadyNotified_markNotified fs lesson date t c p d⟩

/-- Claim C4, witness: the disjointness theorem applied at a concrete mark of
one lesson over the empty file system. -/
theorem dedup_stores_disjoint_witness :
    fsRead (Dedup.markNotified [] ⟨"10A", "P1", "Maths"⟩ "2026-01-13" "T") Scheduler.DEDUP_FILE =
      fsRead [] Scheduler.DEDUP_FILE ∧
    Scheduler.hasAlreadyNotified (Dedup.markNotified [] ⟨"10A", "P1", "Maths"⟩ "2026-01-13" "T")
        "10A" "P1" "2026-01-13" =
      Scheduler.hasAlreadyNotified [] "10A" "P1" "2026-01-13" :=
  ⟨dedup_stores_disjoint.2.1 [] ⟨"10A", "P1", "Maths"⟩ "2026-01-13" "T" Scheduler.DEDUP_FILE
      (by decide),
   dedup_stores_disjoint.2.2.2.2 [] ⟨"10A", "P1", "Maths"⟩ "2026-01-13" "T"
      "10A" "P1" "2026-01-13"⟩

/-- Claim C5: sendNotifications totally returns a per-channel status record
(each field is success or failed, never an exception), the status of each
channel is independent of the credentials and fetch outcomes of the other, and
when Pushover fails after its retry while email succeeds the record is
pushover failed, email success. -/
theorem sendNotifications_per_channel_total (pc : Bool) (a1 a2 : Notifications.FetchOutcome)
    (ec : Bool) (b1 b2 : Notifications.FetchOutcome) :
    ((Notifications.sendNotifications pc a1 a2 ec b1 b2).pushover = "success" ∨
     (Notifications.sendNotifications pc a1 a2 ec b1 b2).pushover = "failed") ∧
    ((Notifications.sendNotifications pc a1 a2 ec b1 b2).email = "success" ∨
     (Notifications.sendNotifications pc a1 a2 ec b1 b2).email = "failed") ∧
    (∀ e, Notifications.sendPushover pc a1 a2 = .error e →
        Notifications.sendEmail ec b1 b2 = .ok () →
        Notifications.sendNotifications pc a1 a2 ec b1 b2 = ⟨"failed", "success"⟩) ∧
    (∀ ec2 c1 c2, (Notifications.sendNotifications pc a1 a2 ec2 c1 c2).pushover =
        (Notifications.sendNotifications pc a1 a2 ec b1 b2).pushover) ∧
    (∀ pc2 d1 d2, (Notifications.sendNotifications pc2 d1 d2 ec b1 b2).email =
        (Notifications.sendNotifications pc a1 a2 ec b1 b2).email) := by
  refine ⟨?_, ?_, ?_, fun ec2 c1 c2 => rfl, fun pc2 d1 d2 => rfl⟩
  · cases hp : Notifications.sendPushover pc a1 a2 with
    | ok v =>
      left
      simp [Notifications.sendNotifications, Notifications.settledStatus, hp]
    | error e =>
      right
      simp [Notifications.sendNotifications, Notifications.settledStatus, hp]
  · cases hm : Notifications.sendEmail ec b1 b2 with
    | ok v =>
      left
      simp [Notifications.sendNotifications, Notifications.settledStatus, hm]
    | error e =>
      right
      simp [Notifications.sendNotifications, Notifications.settledStatus, hm]
  · intro e he hm
    simp [Notifications.sendNotifications, Notifications.settledStatus, he, hm]

/-- Claim C5, witness: Pushover thrown on both attempts while email succeeds
on its first response yields the record pushover failed, email success. -/
theorem sendNotifications_per_channel_total_witness :
    Notifications.sendNotifications true (.thrown "network down") (.thrown "network down") true
        (.response true 200 "ok") (.response true 200 "ok") =
      ⟨"failed", "success"⟩ :=
  (sendNotifications_per_channel_total true (.thrown "network down") (.thrown "network down") true
      (.response true 200 "ok") (.response true 200 "ok")).2.2.1
    "Pushover failed after retry: network down" (by rfl) (by rfl)

/-- Claim C6: whenever the orchestrator dispatches a lesson (the dedup check
passed) and the awaited sendNotifications call returns without raising, the
processing step equals marking the lesson notified, regardless of the
per-channel outcomes inside the returned record. -/
theorem markNotified_called_when_dispatch_returns (fs : FS) (lesson : Lesson)
    (todayDate notifiedAt : String) (pc : Bool) (a1 a2 : Notifications.FetchOutcome)
    (ec : Bool) (b1 b2 : Notifications.FetchOutcome)
    (h : Dedup.hasBeenNotified fs lesson todayDate = false) :
    Index.processLesson fs lesson todayDate
        (.ok (Notifications.sendNotifications pc a1 a2 ec b1 b2)) notifiedAt =
      Dedup.markNotified fs lesson todayDate notifiedAt := by
  simp [Index.processLesson, h]

/-- Claim C6, witness: the theorem applied where both channels fail (every
fetch attempt thrown), showing the lesson is still marked notified. -/
theorem markNotified_called_when_dispatch_returns_witness :
    Notifications.sendNotifications true (.thrown "x") (.thrown "x") true
        (.thrown "y") (.thrown "y") = ⟨"failed", "failed"⟩ ∧
    Index.processLesson [] ⟨"10A", "P1", "Maths"⟩ "2026-01-13"
        (.ok (Notifications.sendNotifications true (.thrown "x") (.thrown "x") true
          (.thrown "y") (.thrown "y"))) "2026-01-13T09:12:00Z" =
      Dedup.markNotified [] ⟨"10A", "P1", "Maths"⟩ "2026-01-13" "2026-01-13T09:12:00Z" :=
  ⟨rfl,
   markNotified_called_when_dispatch_returns [] ⟨"10A", "P1", "Maths"⟩ "2026-01-13"
     "2026-01-13T09:12:00Z" true (.thrown "x") (.thrown "x") true (.thrown "y") (.thrown "y")
     (by rfl)⟩

/-- Claim C7: after any markNotified call, every record remaining in the
persisted dedup store logs/notified-today.json carries the date of that call,
so no record of a previous date survives a write. -/
theorem markNotified_purges_other_dates (fs : FS) (lesson : Lesson) (date t : String)
    (kv : String × DedupRecord)
    (h : kv ∈ fsRead (Dedup.markNotified fs lesson date t) Dedup.DEDUP_FILE) :
    kv.2.date = date := by
  rw [fsRead_markNotified_self] at h
  rcases mem_setKey h with h1 | h2
  · rw [h1]
  · have hmem := List.mem_filter.mp h2
    simpa using hmem.2

/-- Claim C7, witness: after marking a lesson on 2026-01-13 and another on
2026-01-14, the surviving record of the second lesson is dated 2026-01-14
(and by the theorem every member of the store is). -/
theorem markNotified_purges_other_dates_witness :
    (("11B|P2", (⟨"2026-01-14", "t2", "11B", "P2"⟩ : DedupRecord)) ∈
        fsRead (Dedup.markNotified
            (Dedup.markNotified [] ⟨"10A", "P1", "Maths"⟩ "2026-01-13" "t1")
            ⟨"11B", "P2", "English"⟩ "2026-01-14" "t2") Dedup.DEDUP_FILE) ∧
    ("11B|P2", (⟨"2026-01-14", "t2", "11B", "P2"⟩ : DedupRecord)).2.date = "2026-01-14" :=
  ⟨by decide,
   markNotified_purges_other_dates
     (Dedup.markNotified [] ⟨"10A", "P1", "Maths"⟩ "2026-01-13" "t1")
     ⟨"11B", "P2", "English"⟩ "2026-01-14" "t2"
     ("11B|P2", ⟨"2026-01-14", "t2", "11B", "P2"⟩) (by decide)⟩

/-- Claim C8: markNotified is idempotent per key: starting from any store
with unique keys (as every JavaScript object has), calling it twice in a row
for the same lesson and date leaves exactly one live record for the key of
that lesson, holding that date. -/
theorem markNotified_idempotent_per_key (fs : FS) (lesson : Lesson) (date t1 t2 : String)
    (h : ((fsRead fs Dedup.DEDUP_FILE).map Prod.fst).Nodup) :
    countKey (Dedup.dedupKey lesson)
        (fsRead (Dedup.markNotified (Dedup.markNotified fs lesson date t1) lesson date t2)
          Dedup.DEDUP_FILE) = 1 ∧
    getKey (Dedup.dedupKey lesson)
        (fsRead (Dedup.markNotified (Dedup.markNotified fs lesson date t1) lesson date t2)
          Dedup.DEDUP_FILE) =
      some ⟨date, t2, lesson.«class», lesson.period⟩ := by
  simp only [fsRead_markNotified_self]
  have hnod0 : (((fsRead fs Dedup.DEDUP_FILE).filter
      (fun kv => kv.2.date == date)).map Prod.fst).Nodup :=
    List.Nodup.sublist ((List.filter_sublist _).map Prod.fst) h
  have hnod1 : ((setKey (Dedup.dedupKey lesson)
      ⟨date, t1, lesson.«class», lesson.period⟩
      ((fsRead fs Dedup.DEDUP_FILE).filter (fun kv => kv.2.date == date))).map Prod.fst).Nodup :=
    nodupKeys_setKey _ _ _ hnod0
  have hall : ∀ kv ∈ setKey (Dedup.dedupKey lesson)
      ⟨date, t1, lesson.«class», lesson.period⟩
      ((fsRead fs Dedup.DEDUP_FILE).filter (fun kv => kv.2.date == date)),
      (fun kv : String × DedupRecord => kv.2.date == date) kv = true := by
    intro kv hkv
    rcases mem_setKey hkv with h1 | h2
    · rw [h1]; simp
    · exact (List.mem_filter.mp h2).2
  rw [List.filter_eq_self.mpr hall]
  exact ⟨countKey_setKey_nodup _ _ _ hnod1, getKey_setKey_self _ _ _⟩

/-- Claim C8, witness: marking the same lesson twice on the same date over
the empty store leaves one record for its key, dated that date. -/
theorem markNotified_idempotent_per_key_witness :
    countKey "10A|P1"
        (fsRead (Dedup.markNotified (Dedup.markNotified [] ⟨"10A", "P1", "Maths"⟩
            "2026-01-13" "t1") ⟨"10A", "P1", "Maths"⟩ "2026-01-13" "t2") Dedup.DEDUP_FILE) = 1 ∧
    getKey "10A|P1"
        (fsRead (Dedup.markNotified (Dedup.markNotified [] ⟨"10A", "P1", "Maths"⟩
            "2026-01-13" "t1") ⟨"10A", "P1", "Maths"⟩ "2026-01-13" "t2") Dedup.DEDUP_FILE) =
      some ⟨"2026-01-13", "t2", "10A", "P1"⟩ :=
  markNotified_idempotent_per_key [] ⟨"10A", "P1", "Maths"⟩ "2026-01-13" "t1" "t2" (by decide)

/-- Claim C9: for every lesson whose period name is absent from the periods
map, shouldNotifyNow returns false (it does not throw) and emits exactly the
unknown-period warning log line. -/
theorem shouldNotifyNow_unknown_period_false_warn (lesson : Lesson)
    (periods : List (String × Period)) (offsetMinutes : Nat) (currentTime : Time)
    (h : getKey lesson.period periods = none) :
    Scheduler.shouldNotifyNow lesson periods offsetMinutes currentTime =
      (.ok false, [{ level := "WARN", message := "Unknown period in lesson" }]) := by
  simp [Scheduler.shouldNotifyNow, h]

/-- Claim C9, witness: the theorem applied at a lesson naming a period that
the periods map does not hold. -/
theorem shouldNotifyNow_unknown_period_false_warn_witness :
    Scheduler.shouldNotifyNow ⟨"10A", "Ghost", "Maths"⟩ [("P1", ⟨"09:00", "09:40"⟩)] 10 ⟨9, 12⟩ =
      (.ok false, [{ level := "WARN", message := "Unknown period in lesson" }]) :=
  shouldNotifyNow_unknown_period_false_warn ⟨"10A", "Ghost", "Maths"⟩
    [("P1", ⟨"09:00", "09:40"⟩)] 10 ⟨9, 12⟩ (by rfl)

/-- Claim C10: addMinutes carries minute overflow into hours modulo 24: on
the concrete input 09:55 plus 10 it returns 10:05, and for every valid time
and minutes to add the result has hours in 0..23, minutes in 0..59, and
equals the total sum of minutes reduced modulo one day. -/
theorem addMinutes_overflow_mod_day :
    Scheduler.addMinutes ⟨9, 55⟩ 10 = ⟨10, 5⟩ ∧
    ∀ t m, t.hours ≤ 23 → t.minutes ≤ 59 →
      ((Scheduler.addMinutes t m).hours ≤ 23 ∧
       (Scheduler.addMinutes t m).minutes ≤ 59 ∧
       Scheduler.timeToMinutes (Scheduler.addMinutes t m) =
         (Scheduler.timeToMinutes t + m) % 1440) := by
  refine ⟨by rfl, fun t m h1 h2 => ⟨?_, ?_, timeToMinutes_addMinutes t m⟩⟩
  · simp only [Scheduler.addMinutes]
    omega
  · simp only [Scheduler.addMinutes]
    omega

/-- Claim C10, witness: the universal part of the theorem applied at 23:55
plus 70 minutes, which wraps past midnight to 01:05. -/
theorem addMinutes_overflow_mod_day_witness :
    (Scheduler.addMinutes ⟨23, 55⟩ 70).hours ≤ 23 ∧
    (Scheduler.addMinutes ⟨23, 55⟩ 70).minutes ≤ 59 ∧
    Scheduler.timeToMinutes (Scheduler.addMinutes ⟨23, 55⟩ 70) =
      (Scheduler.timeToMinutes ⟨23, 55⟩ + 70) % 1440 :=
  addMinutes_overflow_mod_day.2 ⟨23, 55⟩ 70 (by decide) (by decide)

end ActiveRegistration
